import Mathlib

/-
Verification development for the data-contract resolution core
(datacontract/lint/resolve.py).  The resolution pipeline, the two
reference resolvers and the error values are embedded shallowly.
External collaborators (YAML parsing, JSON-schema validation, network
fetch, file reads, pydantic construction) and the typed document model
are parameters of the embedding, collected in an environment record.
-/

namespace DataContract

/- Strings are modelled as lists of characters so that the reference
string manipulations of the source (startswith, split, slicing) stay
inductively analysable. -/
abbrev Str := List Char

/-- Remote reference marker checked by startswith (resolve.py line 65). -/
def httpPre : Str := "http://".data

/-- Remote reference marker checked by startswith (resolve.py line 65). -/
def httpsPre : Str := "https://".data

/-- Local definition anchor (resolve.py lines 70 and 71). -/
def anchor : Str := "#/definitions/".data

/-- Key of a quality file reference (resolve.py lines 93 and 104). -/
def refKey : Str := "$ref".data

/-- Quality type with per-model specifications (resolve.py line 90). -/
def geType : Str := "great-expectations".data

/-- Python str.startswith. -/
def strStartsWith (p s : Str) : Bool := p.isPrefixOf s

/-- The longest piece of s before an occurrence of the anchor.  Under the
branch guard ref.startswith("#/definitions/"), the Python expression
ref.split("#/definitions/")[1] of resolve.py line 71 equals this function
applied to the part of ref after the leading anchor, because str.split
scans for non-overlapping separator occurrences from the left. -/
def takeUntilAnchor : Str → Str
  | [] => []
  | c :: rest =>
    if anchor.isPrefixOf (c :: rest) then [] else c :: takeUntilAnchor rest

/-- Modelled from the spec: a generic YAML/JSON payload value as used by
the quality specification block (plain text, or a mapping possibly
holding a file reference).  The document model file is not under src/. -/
inductive PyVal where
  | str : Str → PyVal
  | dict : List (Str × PyVal) → PyVal

/-- The payload of DataContractException (model/exceptions.py, not under
src/; the field names follow the raise sites in resolve.py). -/
structure DataContractException where
  type : Str
  result : Str
  name : Str
  reason : Str
  engine : Str
deriving DecidableEq

/-- A raised Python exception: either the typed DataContractException of
the repository or an untyped interpreter error. -/
inductive PyError where
  | contract : DataContractException → PyError
  | keyError : Str → PyError
  | attributeError : Str → PyError
  | typeError : Str → PyError
deriving DecidableEq

/-- Message of the untyped AttributeError raised by ref.startswith when
field.ref is None (resolve.py line 65). -/
def attributeErrorMsg : Str := "NoneType object has no attribute startswith".data

/-- Message of the untyped TypeError raised by os.path.exists when the
reference value is not path-like (resolve.py line 106). -/
def typeErrorMsg : Str := "argument should be a str or an os.PathLike object".data

/-- The UnresolvableReference error (resolve.py lines 74-80). -/
def unresolvable_ref_exception (ref : Str) : DataContractException :=
  { type := "lint".data
  , result := "failed".data
  , name := "Check that data contract YAML is valid".data
  , reason := "Cannot resolve reference ".data ++ ref
  , engine := "datacontract".data }

/-- The MissingReferenceFile error (resolve.py lines 107-113). -/
def missing_reference_file_exception (ref : Str) : DataContractException :=
  { type := "export".data
  , result := "failed".data
  , name := "Check that data contract quality is valid".data
  , reason := "Cannot resolve reference ".data ++ ref
  , engine := "datacontract".data }

/-- The MissingInput error (resolve.py lines 30-36). -/
def missing_input_exception : DataContractException :=
  { type := "lint".data
  , result := "failed".data
  , name := "Check that data contract YAML is valid".data
  , reason := "Data contract needs to be provided".data
  , engine := "datacontract".data }

/-- The ParseError (resolve.py lines 136-145). -/
def parse_exception (msg : Str) : DataContractException :=
  { type := "lint".data
  , result := "failed".data
  , name := "Check that data contract YAML is valid".data
  , reason := "Cannot parse YAML. Error: ".data ++ msg
  , engine := "datacontract".data }

/-- The ValidationError (resolve.py lines 148-171); both except branches
carry the underlying message as the reason. -/
def validation_exception (msg : Str) : DataContractException :=
  { type := "lint".data
  , result := "failed".data
  , name := "Check that data contract YAML is valid".data
  , reason := msg
  , engine := "datacontract".data }

/-- Modelled from the spec: a reusable named field template.  fields_set
is pydantic's model_fields_set (the names of explicitly set attributes)
and attrs holds the current attribute values.  The Definition class has
no ref or ref_obj attribute, so those two names never satisfy the merge
condition of resolve.py line 60 and stay outside attrs. -/
structure Definition where
  fields_set : List Str
  attrs : List (Str × Str)
deriving DecidableEq

/-- Modelled from the spec: a Field has a reference string, an optional
already resolved reference object, pydantic's set of explicitly set
attribute names and the generic attribute values.  Assigning an
attribute through setattr also records its name in fields_set, which the
merge and the idempotence analysis depend on. -/
structure Field where
  ref : Option Str
  ref_obj : Option Definition
  fields_set : List Str
  attrs : List (Str × Str)
deriving DecidableEq

/-- Modelled from the spec: a Model holds a mapping of field name to
Field. -/
structure Model where
  fields : List (Str × Field)
deriving DecidableEq

/-- Modelled from the spec: a Quality block with a type discriminator and
a specification payload. -/
structure Quality where
  type : Str
  specification : PyVal

/-- Modelled from the spec: the root Specification object. -/
structure DataContractSpecification where
  models : List (Str × Model)
  definitions : List (Str × Definition)
  quality : Option Quality

/-- The external collaborators of the core (network fetch, file read,
YAML parsing, JSON-schema validation, pydantic construction) and the
Field class's declared attribute names (pydantic model_fields.keys(),
modelled from the spec since the document model is not under src/).
Every resolver is parameterized by this record; Python's collaborators
are deterministic within one resolution call. -/
structure Env where
  fetch_resource : Str → Str
  read_file : Str → Str
  yaml_parse : Str → Except Str PyVal
  fetch_schema : Option Str → PyVal
  js_validate : PyVal → PyVal → Option Str
  build_spec : PyVal → DataContractSpecification
  build_definition : PyVal → Definition
  fs_read : Str → Option Str
  field_model_fields : List Str

/-- to_yaml (resolve.py lines 136-147). -/
def to_yaml (env : Env) (data_contract_str : Str) : Except PyError PyVal :=
  match env.yaml_parse data_contract_str with
  | .ok yaml_dict => .ok yaml_dict
  | .error msg => .error (.contract (parse_exception msg))

/-- validate (resolve.py lines 150-172). -/
def validate (env : Env) (data_contract_yaml : PyVal)
    (schema_location : Option Str) : Except PyError Unit :=
  match env.js_validate (env.fetch_schema schema_location) data_contract_yaml with
  | none => .ok ()
  | some msg => .error (.contract (validation_exception msg))

/-- resolve_definition_ref (resolve.py lines 64-80).  A None ref raises
an untyped AttributeError at ref.startswith; a local anchor whose looked
up name is absent raises an untyped KeyError at
definitions[definition_name]. -/
def resolve_definition_ref (env : Env) (ref : Option Str)
    (definitions : List (Str × Definition)) : Except PyError Definition :=
  match ref with
  | none => .error (.attributeError attributeErrorMsg)
  | some r =>
    if strStartsWith httpPre r || strStartsWith httpsPre r then do
      let definition_dict ← to_yaml env (env.fetch_resource r)
      pure (env.build_definition definition_dict)
    else if strStartsWith anchor r then
      match definitions.lookup (takeUntilAnchor (r.drop anchor.length)) with
      | some d => .ok d
      | none => .error (.keyError (takeUntilAnchor (r.drop anchor.length)))
    else
      .error (.contract (unresolvable_ref_exception r))

/-- Python set add on the modelled fields_set. -/
def insertIfAbsent (n : Str) (l : List Str) : List Str :=
  if n ∈ l then l else l ++ [n]

/-- setattr on the modelled attribute map. -/
def setAttrVal (l : List (Str × Str)) (n v : Str) : List (Str × Str) :=
  (n, v) :: l.filter (fun p => p.1 != n)

/-- One iteration of the merge loop (resolve.py lines 59-61): copy the
definition's value of attribute n onto the field when the definition has
explicitly set n and the field has not; setattr records n as explicitly
set on the field. -/
def copy_definition_attrs (f : Field) (d : Definition) (n : Str) : Field :=
  if n ∈ d.fields_set ∧ ¬ n ∈ f.fields_set then
    { f with
      attrs := setAttrVal f.attrs n ((d.attrs.lookup n).getD [])
    , fields_set := insertIfAbsent n f.fields_set }
  else f

/-- The merge loop over the Field class's declared attribute names
(resolve.py lines 59-61). -/
def merge_definition (u : List Str) (f : Field) (d : Definition) : Field :=
  u.foldl (fun g n => copy_definition_attrs g d n) f

/-- Python truthiness of field.ref: None and the empty string are falsy
(resolve.py line 53). -/
def refFalsy : Option Str → Bool
  | none => true
  | some r => r.isEmpty

/-- The body of the per-field loop of
inline_definitions_into_data_contract (resolve.py lines 52-61): skip only
when the field has neither a ref nor a ref_obj, otherwise resolve the
reference, store it on ref_obj and merge the definition's attributes. -/
def inline_field (env : Env) (definitions : List (Str × Definition))
    (f : Field) : Except PyError Field :=
  if refFalsy f.ref && f.ref_obj.isNone then .ok f
  else do
    let d ← resolve_definition_ref env f.ref definitions
    pure (merge_definition env.field_model_fields { f with ref_obj := some d } d)

/-- The per-field loop over one model (resolve.py lines 51-61). -/
def inline_fields (env : Env) (definitions : List (Str × Definition)) :
    List (Str × Field) → Except PyError (List (Str × Field))
  | [] => .ok []
  | (name, f) :: rest => do
    let f2 ← inline_field env definitions f
    let rest2 ← inline_fields env definitions rest
    pure ((name, f2) :: rest2)

/-- The per-model loop (resolve.py lines 50-61). -/
def inline_models (env : Env) (definitions : List (Str × Definition)) :
    List (Str × Model) → Except PyError (List (Str × Model))
  | [] => .ok []
  | (name, m) :: rest => do
    let fs ← inline_fields env definitions m.fields
    let rest2 ← inline_models env definitions rest
    pure ((name, { fields := fs }) :: rest2)

/-- inline_definitions_into_data_contract (resolve.py lines 49-61); the
in-place mutation of the source is modelled by returning the updated
Specification. -/
def inline_definitions_into_data_contract (env : Env)
    (spec : DataContractSpecification) :
    Except PyError DataContractSpecification := do
  let ms ← inline_models env spec.definitions spec.models
  pure { spec with models := ms }

/-- get_quality_ref_file (resolve.py lines 98-116). -/
def get_quality_ref_file (env : Env) (quality_spec : PyVal) :
    Except PyError PyVal :=
  match quality_spec with
  | .dict entries =>
    match entries.lookup refKey with
    | some (.str ref) =>
      match env.fs_read ref with
      | none => .error (.contract (missing_reference_file_exception ref))
      | some content => .ok (.str content)
    | some (.dict _) => .error (.typeError typeErrorMsg)
    | none => .ok (.dict entries)
  | .str s => .ok (.str s)

/-- The per-model loop of resolve_quality_ref in the great-expectations
branch (resolve.py lines 90-93). -/
def resolve_quality_entries (env : Env) :
    List (Str × PyVal) → Except PyError (List (Str × PyVal))
  | [] => .ok []
  | (k, v) :: rest => do
    let v2 ← get_quality_ref_file env v
    let rest2 ← resolve_quality_entries env rest
    pure ((k, v2) :: rest2)

/-- resolve_quality_ref (resolve.py lines 83-95). -/
def resolve_quality_ref (env : Env) (quality : Quality) :
    Except PyError Quality :=
  match quality.specification with
  | .dict entries =>
    if quality.type == geType then do
      let entries2 ← resolve_quality_entries env entries
      pure { quality with specification := .dict entries2 }
    else if (entries.lookup refKey).isSome then do
      let s ← get_quality_ref_file env (.dict entries)
      pure { quality with specification := s }
    else .ok quality
  | .str _ => .ok quality

/-- The quality step of resolve_data_contract_from_str (resolve.py lines
130-131), modelled on the whole Specification. -/
def resolve_quality_on_spec (env : Env) (spec : DataContractSpecification) :
    Except PyError DataContractSpecification :=
  match spec.quality with
  | some q => do
    let q2 ← resolve_quality_ref env q
    pure { spec with quality := some q2 }
  | none => .ok spec

/-- Default of include_quality in resolve_data_contract_from_location
(resolve.py line 40). -/
def include_quality_default_from_location : Bool := true

/-- Default of include_quality in resolve_data_contract_from_str
(resolve.py line 120). -/
def include_quality_default_from_str : Bool := false

/-- resolve_data_contract_from_str (resolve.py lines 119-133). -/
def resolve_data_contract_from_str (env : Env) (data_contract_str : Str)
    (schema_location : Option Str)
    (inline_definitions include_quality : Bool) :
    Except PyError DataContractSpecification := do
  let data_contract_yaml_dict ← to_yaml env data_contract_str
  let _ ← validate env data_contract_yaml_dict schema_location
  let spec := env.build_spec data_contract_yaml_dict
  let spec2 ←
    if inline_definitions then inline_definitions_into_data_contract env spec
    else pure spec
  let spec3 ←
    if spec2.quality.isSome && include_quality then
      resolve_quality_on_spec env spec2
    else pure spec2
  pure spec3

/-- resolve_data_contract_from_location (resolve.py lines 39-46). -/
def resolve_data_contract_from_location (env : Env) (location : Str)
    (schema_location : Option Str)
    (inline_definitions include_quality : Bool) :
    Except PyError DataContractSpecification :=
  resolve_data_contract_from_str env
    (if strStartsWith httpPre location || strStartsWith httpsPre location then
      env.fetch_resource location
    else env.read_file location)
    schema_location inline_definitions include_quality

/-- resolve_data_contract_from_location with its Python default arguments
applied. -/
def resolve_data_contract_from_location_with_defaults (env : Env)
    (location : Str) : Except PyError DataContractSpecification :=
  resolve_data_contract_from_location env location none false
    include_quality_default_from_location

/-- resolve_data_contract_from_str with its Python default arguments
applied. -/
def resolve_data_contract_from_str_with_defaults (env : Env)
    (data_contract_str : Str) : Except PyError DataContractSpecification :=
  resolve_data_contract_from_str env data_contract_str none false
    include_quality_default_from_str

/-- resolve_data_contract (resolve.py lines 16-36): the generic entry
point tries the location, then the raw string, then the pre-built object;
the nested calls receive include_quality by the callee defaults. -/
def resolve_data_contract (env : Env) (data_contract_location : Option Str)
    (data_contract_str : Option Str)
    (data_contract : Option DataContractSpecification)
    (schema_location : Option Str) (inline_definitions : Bool) :
    Except PyError DataContractSpecification :=
  match data_contract_location with
  | some loc =>
    resolve_data_contract_from_location env loc schema_location
      inline_definitions include_quality_default_from_location
  | none =>
    match data_contract_str with
    | some s =>
      resolve_data_contract_from_str env s schema_location
        inline_definitions include_quality_default_from_str
    | none =>
      match data_contract with
      | some dc => .ok dc
      | none => .error (.contract missing_input_exception)

/-- Whether a payload is a mapping carrying a file reference key
(resolve.py line 104). -/
def hasRefKey : PyVal → Bool
  | .dict entries => (entries.lookup refKey).isSome
  | .str _ => false

/- Concrete data used to evaluate the resolvers on closed inputs. -/

/-- A definition that sets nothing. -/
def defn0 : Definition := { fields_set := [], attrs := [] }

/-- A quality block whose payload is a file reference. -/
def quality8 : Quality :=
  { type := "custom".data, specification := .dict [(refKey, .str ("q.txt".data))] }

/-- A specification carrying only the quality block above. -/
def spec8 : DataContractSpecification :=
  { models := [], definitions := [], quality := some quality8 }

/-- A concrete environment: the file q.txt exists with content X, any text
parses to an empty mapping, schema validation passes, and construction
yields spec8. -/
def env0 : Env :=
  { fetch_resource := fun _ => []
  , read_file := fun _ => "t".data
  , yaml_parse := fun _ => .ok (.dict [])
  , fetch_schema := fun _ => .dict []
  , js_validate := fun _ _ => none
  , build_spec := fun _ => spec8
  , build_definition := fun _ => defn0
  , fs_read := fun s => if s == "q.txt".data then some ("X".data) else none
  , field_model_fields := ["a".data, "b".data] }

/-- A definition setting attribute a to x. -/
def defn1 : Definition := { fields_set := ["a".data], attrs := [("a".data, "x".data)] }

/-- A specification with one model whose single field references d1. -/
def spec1 : DataContractSpecification :=
  { models :=
      [("m".data,
        { fields :=
            [("f".data,
              { ref := some ("#/definitions/d1".data)
              , ref_obj := none
              , fields_set := []
              , attrs := [] })] })]
  , definitions := [("d1".data, defn1)]
  , quality := none }

/-- The result of inlining spec1 once. -/
def spec1out : DataContractSpecification :=
  { models :=
      [("m".data,
        { fields :=
            [("f".data,
              { ref := some ("#/definitions/d1".data)
              , ref_obj := some defn1
              , fields_set := ["a".data]
              , attrs := [("a".data, "x".data)] })] })]
  , definitions := [("d1".data, defn1)]
  , quality := none }

/-- A specification whose single field has a populated ref_obj but no ref,
the already resolved state the spec says is skipped. -/
def specC1 : DataContractSpecification :=
  { models :=
      [("m".data,
        { fields :=
            [("f".data,
              { ref := none
              , ref_obj := some defn0
              , fields_set := []
              , attrs := [] })] })]
  , definitions := []
  , quality := none }

/-- A definition distinguishable from defC5b. -/
def defC5a : Definition :=
  { fields_set := ["t".data], attrs := [("t".data, "small".data)] }

/-- A definition distinguishable from defC5a. -/
def defC5b : Definition :=
  { fields_set := ["t".data], attrs := [("t".data, "big".data)] }

/-- Definitions keyed by a name that itself contains the anchor, next to
the truncation of that name at the anchor. -/
def defsC5 : List (Str × Definition) :=
  [("a#/definitions/b".data, defC5b), ("a".data, defC5a)]

/-- A definition setting attributes a and b. -/
def defn2 : Definition :=
  { fields_set := ["a".data, "b".data]
  , attrs := [("a".data, "1".data), ("b".data, "2".data)] }

/-- A field that references d2 and explicitly sets attribute a. -/
def f2 : Field :=
  { ref := some ("#/definitions/d2".data)
  , ref_obj := none
  , fields_set := ["a".data]
  , attrs := [("a".data, "9".data)] }

/-- Definitions holding d2. -/
def defs2 : List (Str × Definition) := [("d2".data, defn2)]

/-- The field f2 after inlining: a keeps the field's value, b receives the
definition's value. -/
def f2out : Field :=
  { ref := some ("#/definitions/d2".data)
  , ref_obj := some defn2
  , fields_set := ["a".data, "b".data]
  , attrs := [("b".data, "2".data), ("a".data, "9".data)] }

/-- The quality block quality8 after file-reference resolution. -/
def quality8out : Quality :=
  { type := "custom".data, specification := .str ("X".data) }

/- Generic reductions of the Except monad used by the resolvers. -/

lemma except_bind_ok {α β ε : Type} (a : α) (f : α → Except ε β) :
    (Except.ok a >>= f) = f a := rfl

lemma except_bind_error {α β ε : Type} (e : ε) (f : α → Except ε β) :
    ((Except.error e : Except ε α) >>= f) = Except.error e := rfl

lemma except_pure_eq {α ε : Type} (a : α) : (pure a : Except ε α) = Except.ok a := rfl

/- Facts about the modelled string operations. -/

lemma prefix_of_isPrefixOf {p s : Str} (h : p.isPrefixOf s = true) : p <+: s := by
  induction p generalizing s with
  | nil => exact List.nil_prefix
  | cons c t ih =>
    cases s with
    | nil => simp [List.isPrefixOf] at h
    | cons b bs =>
      simp only [List.isPrefixOf, Bool.and_eq_true, beq_iff_eq] at h
      obtain ⟨rfl, h2⟩ := h
      obtain ⟨r, hr⟩ := ih h2
      exact ⟨r, by rw [List.cons_append, hr]⟩

lemma strStartsWith_append (p s : Str) : strStartsWith p (p ++ s) = true := by
  induction p with
  | nil => cases s <;> rfl
  | cons c t ih =>
    simp only [strStartsWith, List.cons_append, List.isPrefixOf, beq_self_eq_true,
      Bool.true_and]
    exact ih

lemma takeUntilAnchor_no_occurrence (name : Str) (h : ¬ anchor <:+: name) :
    takeUntilAnchor name = name := by
  induction name with
  | nil => rfl
  | cons c rest ih =>
    have hpre : anchor.isPrefixOf (c :: rest) = false := by
      cases hp : anchor.isPrefixOf (c :: rest) with
      | false => rfl
      | true => exact absurd (List.IsPrefix.isInfix (prefix_of_isPrefixOf hp)) h
    simp only [takeUntilAnchor, hpre, Bool.false_eq_true, if_false]
    exact congrArg (c :: ·) (ih (fun hi => h (List.infix_cons hi)))

lemma anchor_append_not_http (name : Str) :
    strStartsWith httpPre (anchor ++ name) = false := rfl

lemma anchor_append_not_https (name : Str) :
    strStartsWith httpsPre (anchor ++ name) = false := rfl

lemma anchor_append_drop (name : Str) :
    (anchor ++ name).drop anchor.length = name := List.drop_left anchor name

/- resolve_definition_ref: unfolding on a present reference and behavior
on local anchors and falsy references. -/

lemma resolve_definition_ref_some (env : Env) (r : Str)
    (defs : List (Str × Definition)) :
    resolve_definition_ref env (some r) defs =
      if strStartsWith httpPre r || strStartsWith httpsPre r then do
        let definition_dict ← to_yaml env (env.fetch_resource r)
        pure (env.build_definition definition_dict)
      else if strStartsWith anchor r then
        match defs.lookup (takeUntilAnchor (r.drop anchor.length)) with
        | some d => Except.ok d
        | none => Except.error (.keyError (takeUntilAnchor (r.drop anchor.length)))
      else
        Except.error (.contract (unresolvable_ref_exception r)) := rfl

lemma resolve_definition_ref_anchor (env : Env) (defs : List (Str × Definition))
    (name : Str) (h : ¬ anchor <:+: name) :
    resolve_definition_ref env (some (anchor ++ name)) defs =
      match defs.lookup name with
      | some d => Except.ok d
      | none => Except.error (.keyError name) := by
  rw [resolve_definition_ref_some, anchor_append_not_http,
    anchor_append_not_https, strStartsWith_append]
  simp only [Bool.or_self, Bool.false_eq_true, if_false, if_true]
  rw [anchor_append_drop, takeUntilAnchor_no_occurrence name h]

lemma resolve_definition_ref_none (env : Env) (defs : List (Str × Definition)) :
    resolve_definition_ref env none defs =
      Except.error (.attributeError attributeErrorMsg) := rfl

lemma resolve_definition_ref_empty (env : Env) (defs : List (Str × Definition)) :
    resolve_definition_ref env (some []) defs =
      Except.error (.contract (unresolvable_ref_exception [])) := rfl

lemma resolve_of_falsy_is_error (env : Env) (defs : List (Str × Definition))
    (r : Option Str) (hr : refFalsy r = true) (d : Definition) :
    resolve_definition_ref env r defs ≠ Except.ok d := by
  cases r with
  | none => intro h; exact Except.noConfusion h
  | some s =>
    have hs : s = [] := List.isEmpty_iff.mp hr
    subst hs
    intro h
    rw [resolve_definition_ref_empty] at h
    exact Except.noConfusion h

/- Association-list lookup after a modelled setattr. -/

lemma lookup_filter_ne (l : List (Str × Str)) (m n : Str) (h : m ≠ n) :
    (l.filter (fun p => p.1 != n)).lookup m = l.lookup m := by
  induction l with
  | nil => rfl
  | cons p l ih =>
    obtain ⟨k, v⟩ := p
    by_cases hk : k = n
    · subst hk
      have hmk : (m == k) = false := beq_eq_false_iff_ne.mpr h
      simp only [List.filter, bne_self_eq_false, List.lookup, hmk, ih]
    · have hkn : (k != n) = true := bne_iff_ne.mpr hk
      simp only [List.filter, hkn, List.lookup, ih]

lemma lookup_setAttrVal_self (l : List (Str × Str)) (n v : Str) :
    (setAttrVal l n v).lookup n = some v := by
  simp [setAttrVal, List.lookup]

lemma lookup_setAttrVal_ne (l : List (Str × Str)) (n m v : Str) (h : m ≠ n) :
    (setAttrVal l n v).lookup m = l.lookup m := by
  have hmn : (m == n) = false := beq_eq_false_iff_ne.mpr h
  simp only [setAttrVal, List.lookup, hmn]
  exact lookup_filter_ne l m n h

/- The merge loop: structural facts feeding the override and idempotence
claims. -/

lemma copy_definition_attrs_ref (f : Field) (d : Definition) (n : Str) :
    (copy_definition_attrs f d n).ref = f.ref := by
  unfold copy_definition_attrs; split <;> rfl

lemma copy_definition_attrs_ref_obj (f : Field) (d : Definition) (n : Str) :
    (copy_definition_attrs f d n).ref_obj = f.ref_obj := by
  unfold copy_definition_attrs; split <;> rfl

lemma mem_insertIfAbsent_of_mem (n m : Str) (l : List Str) (h : m ∈ l) :
    m ∈ insertIfAbsent n l := by
  unfold insertIfAbsent; split
  · exact h
  · exact List.mem_append.mpr (Or.inl h)

lemma mem_insertIfAbsent_self (n : Str) (l : List Str) : n ∈ insertIfAbsent n l := by
  unfold insertIfAbsent; split
  · assumption
  · exact List.mem_append.mpr (Or.inr (List.mem_singleton.mpr rfl))

lemma not_mem_insertIfAbsent (n m : Str) (l : List Str) (hm : ¬ m ∈ l)
    (hnm : m ≠ n) : ¬ m ∈ insertIfAbsent n l := by
  unfold insertIfAbsent; split
  · exact hm
  · intro hc
    rcases List.mem_append.mp hc with h1 | h2
    · exact hm h1
    · exact hnm (List.mem_singleton.mp h2)

lemma copy_fields_set_mono (f : Field) (d : Definition) (n m : Str)
    (h : m ∈ f.fields_set) : m ∈ (copy_definition_attrs f d n).fields_set := by
  unfold copy_definition_attrs; split
  · exact mem_insertIfAbsent_of_mem n m f.fields_set h
  · exact h

lemma copy_fields_set_adds (f : Field) (d : Definition) (n : Str)
    (hd : n ∈ d.fields_set) : n ∈ (copy_definition_attrs f d n).fields_set := by
  by_cases hf : n ∈ f.fields_set
  · exact copy_fields_set_mono f d n n hf
  · unfold copy_definition_attrs
    rw [if_pos ⟨hd, hf⟩]
    exact mem_insertIfAbsent_self n f.fields_set

lemma copy_fields_set_not_mem (f : Field) (d : Definition) (n m : Str)
    (hm : ¬ m ∈ f.fields_set) (hnm : m ≠ n) :
    ¬ m ∈ (copy_definition_attrs f d n).fields_set := by
  unfold copy_definition_attrs; split
  · exact not_mem_insertIfAbsent n m f.fields_set hm hnm
  · exact hm

lemma merge_definition_nil (f : Field) (d : Definition) :
    merge_definition [] f d = f := rfl

lemma merge_definition_cons (n : Str) (u : List Str) (f : Field) (d : Definition) :
    merge_definition (n :: u) f d =
      merge_definition u (copy_definition_attrs f d n) d := rfl

lemma merge_definition_ref (u : List Str) (f : Field) (d : Definition) :
    (merge_definition u f d).ref = f.ref := by
  induction u generalizing f with
  | nil => rfl
  | cons n u ih => rw [merge_definition_cons, ih, copy_definition_attrs_ref]

lemma merge_definition_ref_obj (u : List Str) (f : Field) (d : Definition) :
    (merge_definition u f d).ref_obj = f.ref_obj := by
  induction u generalizing f with
  | nil => rfl
  | cons n u ih => rw [merge_definition_cons, ih, copy_definition_attrs_ref_obj]

lemma merge_fields_set_mono (u : List Str) (f : Field) (d : Definition) (m : Str)
    (h : m ∈ f.fields_set) : m ∈ (merge_definition u f d).fields_set := by
  induction u generalizing f with
  | nil => exact h
  | cons n u ih =>
    rw [merge_definition_cons]
    exact ih _ (copy_fields_set_mono f d n m h)

lemma merge_fields_set_adds (u : List Str) (f : Field) (d : Definition) (n : Str)
    (hu : n ∈ u) (hd : n ∈ d.fields_set) :
    n ∈ (merge_definition u f d).fields_set := by
  induction u generalizing f with
  | nil => cases hu
  | cons m u ih =>
    rw [merge_definition_cons]
    rcases List.mem_cons.mp hu with h1 | h2
    · subst h1
      exact merge_fields_set_mono u _ d n (copy_fields_set_adds f d n hd)
    · exact ih (copy_definition_attrs f d m) h2

lemma merge_definition_no_op (u : List Str) (f : Field) (d : Definition)
    (h : ∀ n, n ∈ u → n ∈ d.fields_set → n ∈ f.fields_set) :
    merge_definition u f d = f := by
  induction u generalizing f with
  | nil => rfl
  | cons m u ih =>
    rw [merge_definition_cons]
    have hcopy : copy_definition_attrs f d m = f := by
      unfold copy_definition_attrs
      rw [if_neg]
      intro hc
      exact hc.2 (h m (List.mem_cons_self m u) hc.1)
    rw [hcopy]
    exact ih f (fun n hn hd => h n (List.mem_cons_of_mem m hn) hd)

lemma merge_definition_idem (u : List Str) (f : Field) (d : Definition) :
    merge_definition u (merge_definition u f d) d = merge_definition u f d :=
  merge_definition_no_op u _ d (fun n hu hd => merge_fields_set_adds u f d n hu hd)

/- Attribute values after the merge loop. -/

lemma copy_lookup_of_mem (f : Field) (d : Definition) (n m : Str)
    (hm : m ∈ f.fields_set) :
    (copy_definition_attrs f d n).attrs.lookup m = f.attrs.lookup m := by
  unfold copy_definition_attrs; split
  · next hc =>
    exact lookup_setAttrVal_ne f.attrs n m _ (fun he => hc.2 (he ▸ hm))
  · rfl

lemma merge_lookup_of_mem (u : List Str) (f : Field) (d : Definition) (m : Str)
    (hm : m ∈ f.fields_set) :
    (merge_definition u f d).attrs.lookup m = f.attrs.lookup m := by
  induction u generalizing f with
  | nil => rfl
  | cons n u ih =>
    rw [merge_definition_cons, ih _ (copy_fields_set_mono f d n m hm),
      copy_lookup_of_mem f d n m hm]

lemma copy_lookup_not_def (f : Field) (d : Definition) (n m : Str)
    (hm : ¬ m ∈ d.fields_set) :
    (copy_definition_attrs f d n).attrs.lookup m = f.attrs.lookup m := by
  unfold copy_definition_attrs; split
  · next hc =>
    exact lookup_setAttrVal_ne f.attrs n m _ (fun he => hm (he ▸ hc.1))
  · rfl

lemma merge_lookup_not_def (u : List Str) (f : Field) (d : Definition) (m : Str)
    (hm : ¬ m ∈ d.fields_set) :
    (merge_definition u f d).attrs.lookup m = f.attrs.lookup m := by
  induction u generalizing f with
  | nil => rfl
  | cons n u ih =>
    rw [merge_definition_cons, ih _, copy_lookup_not_def f d n m hm]

lemma merge_lookup_copied (u : List Str) (f : Field) (d : Definition) (n : Str)
    (hu : n ∈ u) (hd : n ∈ d.fields_set) (hf : ¬ n ∈ f.fields_set) :
    (merge_definition u f d).attrs.lookup n = some ((d.attrs.lookup n).getD []) := by
  induction u generalizing f with
  | nil => cases hu
  | cons m u ih =>
    rw [merge_definition_cons]
    by_cases hnm : n = m
    · subst hnm
      have hcopy : copy_definition_attrs f d n =
          { f with
            attrs := setAttrVal f.attrs n ((d.attrs.lookup n).getD [])
          , fields_set := insertIfAbsent n f.fields_set } := by
        unfold copy_definition_attrs
        rw [if_pos ⟨hd, hf⟩]
      rw [hcopy, merge_lookup_of_mem u _ d n (mem_insertIfAbsent_self n f.fields_set)]
      exact lookup_setAttrVal_self f.attrs n _
    · rcases List.mem_cons.mp hu with h1 | h2
      · exact absurd h1 hnm
      · exact ih (copy_definition_attrs f d m) h2 (copy_fields_set_not_mem f d m n hf hnm)

/- Idempotence of the per-field inlining and of the whole pipeline. -/

lemma field_set_ref_obj_self (f : Field) (d : Definition) (h : f.ref_obj = some d) :
    { f with ref_obj := some d } = f := by
  cases f with
  | mk r ro fs a =>
    have h2 : ro = some d := h
    rw [h2]

lemma inline_field_guard_false (env : Env) (defs : List (Str × Definition))
    (f : Field) (hg : (refFalsy f.ref && f.ref_obj.isNone) = false) :
    inline_field env defs f =
      (resolve_definition_ref env f.ref defs) >>= fun d =>
        pure (merge_definition env.field_model_fields { f with ref_obj := some d } d) := by
  unfold inline_field
  simp only [hg, Bool.false_eq_true, if_false]

lemma inline_field_of_resolve (env : Env) (defs : List (Str × Definition))
    (f : Field) (d : Definition)
    (hres : resolve_definition_ref env f.ref defs = Except.ok d) :
    inline_field env defs f =
      Except.ok (merge_definition env.field_model_fields { f with ref_obj := some d } d) := by
  have hg : (refFalsy f.ref && f.ref_obj.isNone) = false := by
    cases hrf : refFalsy f.ref with
    | false => simp [hrf]
    | true => exact absurd hres (resolve_of_falsy_is_error env defs f.ref hrf d)
  rw [inline_field_guard_false env defs f hg, hres, except_bind_ok, except_pure_eq]

lemma inline_field_idem (env : Env) (defs : List (Str × Definition))
    (f f' : Field) (h : inline_field env defs f = Except.ok f') :
    inline_field env defs f' = Except.ok f' := by
  by_cases hg : (refFalsy f.ref && f.ref_obj.isNone) = true
  · unfold inline_field at h
    rw [if_pos hg] at h
    have hf : f = f' := Except.ok.inj h
    subst hf
    unfold inline_field
    rw [if_pos hg]
  · have hg2 : (refFalsy f.ref && f.ref_obj.isNone) = false := by
      cases hb : (refFalsy f.ref && f.ref_obj.isNone) with
      | false => rfl
      | true => exact absurd hb hg
    rw [inline_field_guard_false env defs f hg2] at h
    cases hres : resolve_definition_ref env f.ref defs with
    | error e => rw [hres, except_bind_error] at h; exact Except.noConfusion h
    | ok d =>
      rw [hres, except_bind_ok, except_pure_eq] at h
      have hf' : f' =
          merge_definition env.field_model_fields { f with ref_obj := some d } d :=
        (Except.ok.inj h).symm
      subst hf'
      have hro : (merge_definition env.field_model_fields
          { f with ref_obj := some d } d).ref_obj = some d := by
        rw [merge_definition_ref_obj]
      have href : (merge_definition env.field_model_fields
          { f with ref_obj := some d } d).ref = f.ref := by
        rw [merge_definition_ref]
      have hg3 : (refFalsy (merge_definition env.field_model_fields
            { f with ref_obj := some d } d).ref &&
          (merge_definition env.field_model_fields
            { f with ref_obj := some d } d).ref_obj.isNone) = false := by
        rw [hro]
        simp
      have hres2 : resolve_definition_ref env (merge_definition env.field_model_fields
          { f with ref_obj := some d } d).ref defs = Except.ok d := by
        rw [href]
        exact hres
      rw [inline_field_guard_false env defs _ hg3, hres2, except_bind_ok,
        except_pure_eq, field_set_ref_obj_self _ d hro]
      exact congrArg Except.ok (merge_definition_idem env.field_model_fields _ d)

lemma inline_fields_idem (env : Env) (defs : List (Str × Definition))
    (l l' : List (Str × Field)) (h : inline_fields env defs l = Except.ok l') :
    inline_fields env defs l' = Except.ok l' := by
  induction l generalizing l' with
  | nil =>
    simp only [inline_fields] at h
    have hl : ([] : List (Str × Field)) = l' := Except.ok.inj h
    subst hl
    rfl
  | cons p rest ih =>
    obtain ⟨name, f⟩ := p
    simp only [inline_fields] at h
    cases hf : inline_field env defs f with
    | error e => rw [hf, except_bind_error] at h; exact Except.noConfusion h
    | ok f2 =>
      rw [hf, except_bind_ok] at h
      cases hr : inline_fields env defs rest with
      | error e => rw [hr, except_bind_error] at h; exact Except.noConfusion h
      | ok rest2 =>
        rw [hr, except_bind_ok, except_pure_eq] at h
        have hl : (name, f2) :: rest2 = l' := Except.ok.inj h
        subst hl
        simp only [inline_fields]
        rw [inline_field_idem env defs f f2 hf, except_bind_ok, ih rest2 hr,
          except_bind_ok, except_pure_eq]

lemma inline_models_idem (env : Env) (defs : List (Str × Definition))
    (l l' : List (Str × Model)) (h : inline_models env defs l = Except.ok l') :
    inline_models env defs l' = Except.ok l' := by
  induction l generalizing l' with
  | nil =>
    simp only [inline_models] at h
    have hl : ([] : List (Str × Model)) = l' := Except.ok.inj h
    subst hl
    rfl
  | cons p rest ih =>
    obtain ⟨name, m⟩ := p
    simp only [inline_models] at h
    cases hf : inline_fields env defs m.fields with
    | error e => rw [hf, except_bind_error] at h; exact Except.noConfusion h
    | ok fs =>
      rw [hf, except_bind_ok] at h
      cases hr : inline_models env defs rest with
      | error e => rw [hr, except_bind_error] at h; exact Except.noConfusion h
      | ok rest2 =>
        rw [hr, except_bind_ok, except_pure_eq] at h
        have hl : (name, ({ fields := fs } : Model)) :: rest2 = l' := Except.ok.inj h
        subst hl
        simp only [inline_models]
        rw [inline_fields_idem env defs m.fields fs hf, except_bind_ok,
          ih rest2 hr, except_bind_ok, except_pure_eq]

lemma inline_definitions_preserves_definitions (env : Env)
    (spec s : DataContractSpecification)
    (h : inline_definitions_into_data_contract env spec = Except.ok s) :
    s.definitions = spec.definitions ∧ s.quality = spec.quality := by
  unfold inline_definitions_into_data_contract at h
  cases hms : inline_models env spec.definitions spec.models with
  | error e => rw [hms, except_bind_error] at h; exact Except.noConfusion h
  | ok ms =>
    rw [hms, except_bind_ok, except_pure_eq] at h
    have hs : ({ spec with models := ms } : DataContractSpecification) = s :=
      Except.ok.inj h
    rw [← hs]
    exact ⟨rfl, rfl⟩

/- The string-to-specification pipeline under successful collaborators. -/

lemma to_yaml_ok (env : Env) (s : Str) (v : PyVal)
    (h : env.yaml_parse s = Except.ok v) : to_yaml env s = Except.ok v := by
  unfold to_yaml
  rw [h]

lemma validate_ok (env : Env) (doc : PyVal) (sl : Option Str)
    (h : env.js_validate (env.fetch_schema sl) doc = none) :
    validate env doc sl = Except.ok () := by
  unfold validate
  rw [h]

lemma get_quality_ref_file_missing (env : Env) (entries : List (Str × PyVal))
    (p : Str) (href : entries.lookup refKey = some (PyVal.str p))
    (hfs : env.fs_read p = none) :
    get_quality_ref_file env (PyVal.dict entries) =
      Except.error (.contract (missing_reference_file_exception p)) := by
  simp [get_quality_ref_file, href, hfs]

lemma get_quality_ref_file_found (env : Env) (entries : List (Str × PyVal))
    (p content : Str) (href : entries.lookup refKey = some (PyVal.str p))
    (hfs : env.fs_read p = some content) :
    get_quality_ref_file env (PyVal.dict entries) = Except.ok (PyVal.str content) := by
  simp [get_quality_ref_file, href, hfs]

lemma get_quality_ref_file_no_ref (env : Env) (v : PyVal)
    (hv : hasRefKey v = false) : get_quality_ref_file env v = Except.ok v := by
  cases v with
  | str s => rfl
  | dict es =>
    cases hlu : es.lookup refKey with
    | none => simp [get_quality_ref_file, hlu]
    | some val =>
      exfalso
      simp [hasRefKey, hlu] at hv

lemma resolve_quality_ref_dollar (env : Env) (q : Quality)
    (entries : List (Str × PyVal)) (p content : Str)
    (hspec : q.specification = PyVal.dict entries)
    (hty : q.type ≠ geType)
    (href : entries.lookup refKey = some (PyVal.str p))
    (hfs : env.fs_read p = some content) :
    resolve_quality_ref env q =
      Except.ok { q with specification := PyVal.str content } := by
  have htyb : (q.type == geType) = false := beq_eq_false_iff_ne.mpr hty
  unfold resolve_quality_ref
  simp only [hspec, htyb, Bool.false_eq_true, if_false, href, Option.isSome_some,
    if_true]
  rw [get_quality_ref_file_found env entries p content href hfs, except_bind_ok,
    except_pure_eq]

lemma resolve_quality_on_spec_some (env : Env) (spec : DataContractSpecification)
    (q q' : Quality) (hq : spec.quality = some q)
    (h : resolve_quality_ref env q = Except.ok q') :
    resolve_quality_on_spec env spec =
      Except.ok { spec with quality := some q' } := by
  unfold resolve_quality_on_spec
  simp only [hq]
  rw [h, except_bind_ok, except_pure_eq]

lemma resolve_from_str_pipeline (env : Env) (text : Str) (doc : PyVal)
    (spec0 : DataContractSpecification) (iq : Bool)
    (hyaml : env.yaml_parse text = Except.ok doc)
    (hval : env.js_validate (env.fetch_schema none) doc = none)
    (hbuild : env.build_spec doc = spec0) :
    resolve_data_contract_from_str env text none false iq =
      (if spec0.quality.isSome && iq then resolve_quality_on_spec env spec0
       else Except.ok spec0) := by
  unfold resolve_data_contract_from_str
  rw [to_yaml_ok env text doc hyaml, except_bind_ok, validate_ok env doc none hval,
    except_bind_ok, hbuild]
  simp only [Bool.false_eq_true, if_false, except_pure_eq, except_bind_ok]
  cases hc : spec0.quality.isSome && iq with
  | false =>
    simp only [hc, Bool.false_eq_true, if_false, except_pure_eq, except_bind_ok]
  | true =>
    simp only [hc, if_true]
    cases hr : resolve_quality_on_spec env spec0 with
    | error e => rw [except_bind_error]
    | ok s3 => rw [except_bind_ok]

/-- C1 (amended): definition inlining is idempotent.  Whenever inlining a
Specification succeeds, running it a second time returns the same
Specification unchanged.  The idempotence does not come from skipping
fields with a populated ref_obj: such fields are re-resolved, and the
re-resolution deterministically reproduces the same definition while the
merge copies nothing new. -/
theorem c1_inline_definitions_idempotent (env : Env)
    (spec s : DataContractSpecification)
    (h : inline_definitions_into_data_contract env spec = Except.ok s) :
    inline_definitions_into_data_contract env s = Except.ok s := by
  unfold inline_definitions_into_data_contract at h ⊢
  cases hms : inline_models env spec.definitions spec.models with
  | error e => rw [hms, except_bind_error] at h; exact Except.noConfusion h
  | ok ms =>
    rw [hms, except_bind_ok, except_pure_eq] at h
    have hs : ({ spec with models := ms } : DataContractSpecification) = s :=
      Except.ok.inj h
    subst hs
    rw [show ({ spec with models := ms } : DataContractSpecification).definitions
        = spec.definitions from rfl,
      show ({ spec with models := ms } : DataContractSpecification).models = ms
        from rfl,
      inline_models_idem env spec.definitions spec.models ms hms, except_bind_ok]
    rfl

/-- C1 witness: a specification with one definition reference is inlined
once and the result is a fixed point of inlining. -/
theorem c1_witness :
    inline_definitions_into_data_contract env0 spec1 = Except.ok spec1out ∧
    inline_definitions_into_data_contract env0 spec1out = Except.ok spec1out :=
  ⟨by rfl, c1_inline_definitions_idempotent env0 spec1 spec1out (by rfl)⟩

/-- C1 counterexample: a field whose ref_obj is already populated (and
whose ref is absent) is not skipped, refuting the claimed guard.  The
loop calls resolve_definition_ref on the None ref and inlining fails with
an untyped AttributeError instead of returning the Specification
unchanged. -/
theorem c1_counterexample :
    inline_definitions_into_data_contract env0 specC1 =
      Except.error (PyError.attributeError attributeErrorMsg) ∧
    inline_definitions_into_data_contract env0 specC1 ≠ Except.ok specC1 := by
  refine ⟨rfl, ?_⟩
  intro h
  exact Except.noConfusion ((rfl :
    inline_definitions_into_data_contract env0 specC1 =
      Except.error (PyError.attributeError attributeErrorMsg)).symm.trans h)

/-- C2: the merge policy of inlining.  When a field's reference resolves
to a definition, inlining stores it on ref_obj and copies exactly the
attributes the definition explicitly sets and the field does not:
attributes explicitly set on the field keep the field's value, an
attribute set only by the definition (and declared on the Field class)
receives the definition's value, and attributes the definition does not
set are untouched. -/
theorem c2_merge_policy (env : Env) (defs : List (Str × Definition))
    (f f' : Field) (d : Definition) (n v : Str)
    (hres : resolve_definition_ref env f.ref defs = Except.ok d)
    (hinl : inline_field env defs f = Except.ok f') :
    f'.ref_obj = some d ∧
    (n ∈ f.fields_set → f'.attrs.lookup n = f.attrs.lookup n) ∧
    (n ∈ env.field_model_fields → n ∈ d.fields_set → ¬ n ∈ f.fields_set →
      d.attrs.lookup n = some v → f'.attrs.lookup n = some v) ∧
    (¬ n ∈ d.fields_set → f'.attrs.lookup n = f.attrs.lookup n) := by
  rw [inline_field_of_resolve env defs f d hres] at hinl
  have hf' : f' =
      merge_definition env.field_model_fields { f with ref_obj := some d } d :=
    (Except.ok.inj hinl).symm
  subst hf'
  refine ⟨?_, ?_, ?_, ?_⟩
  · rw [merge_definition_ref_obj]
  · intro hn
    exact merge_lookup_of_mem env.field_model_fields _ d n hn
  · intro h1 h2 h3 h4
    rw [merge_lookup_copied env.field_model_fields { f with ref_obj := some d }
      d n h1 h2 h3, h4]
    rfl
  · intro h1
    exact merge_lookup_not_def env.field_model_fields _ d n h1

/-- C2 witness: field f2 explicitly sets a to 9, definition d2 sets a to 1
and b to 2; after inlining the field keeps a = 9 and inherits b = 2. -/
theorem c2_witness :
    (resolve_definition_ref env0 f2.ref defs2 = Except.ok defn2 ∧
      inline_field env0 defs2 f2 = Except.ok f2out) ∧
    (f2out.ref_obj = some defn2 ∧
      ("b".data ∈ f2.fields_set →
        f2out.attrs.lookup ("b".data) = f2.attrs.lookup ("b".data)) ∧
      ("b".data ∈ env0.field_model_fields → "b".data ∈ defn2.fields_set →
        ¬ "b".data ∈ f2.fields_set →
        defn2.attrs.lookup ("b".data) = some ("2".data) →
        f2out.attrs.lookup ("b".data) = some ("2".data)) ∧
      (¬ "b".data ∈ defn2.fields_set →
        f2out.attrs.lookup ("b".data) = f2.attrs.lookup ("b".data))) :=
  ⟨⟨by rfl, by rfl⟩,
    c2_merge_policy env0 defs2 f2 f2out defn2 ("b".data) ("2".data)
      (by rfl) (by rfl)⟩

/-- C3: a reference that starts with neither remote marker nor the local
anchor makes definition resolution fail with the UnresolvableReference
error, whose reason names the exact reference string; no definition (and
hence no Specification) is produced. -/
theorem c3_unresolvable_reference (env : Env) (defs : List (Str × Definition))
    (r : Str)
    (h1 : strStartsWith httpPre r = false)
    (h2 : strStartsWith httpsPre r = false)
    (h3 : strStartsWith anchor r = false) :
    resolve_definition_ref env (some r) defs =
      Except.error (.contract (unresolvable_ref_exception r)) ∧
    (unresolvable_ref_exception r).reason = "Cannot resolve reference ".data ++ r := by
  refine ⟨?_, rfl⟩
  rw [resolve_definition_ref_some, h1, h2, h3]
  simp

/-- C3 witness: the reference not-a-valid-ref is rejected with the typed
error naming it. -/
theorem c3_witness :
    (strStartsWith httpPre ("not-a-valid-ref".data) = false ∧
      strStartsWith httpsPre ("not-a-valid-ref".data) = false ∧
      strStartsWith anchor ("not-a-valid-ref".data) = false) ∧
    (resolve_definition_ref env0 (some ("not-a-valid-ref".data)) [] =
        Except.error (.contract (unresolvable_ref_exception ("not-a-valid-ref".data))) ∧
      (unresolvable_ref_exception ("not-a-valid-ref".data)).reason =
        "Cannot resolve reference ".data ++ "not-a-valid-ref".data) :=
  ⟨⟨by rfl, by rfl, by rfl⟩,
    c3_unresolvable_reference env0 [] ("not-a-valid-ref".data)
      (by rfl) (by rfl) (by rfl)⟩

/-- C4: quality file-reference resolution.  For a mapping payload carrying
a string reference, resolution fails with the MissingReferenceFile error
naming the path when the file does not exist, and replaces the payload by
the file's full text content when it does; a payload without a reference
key passes through unchanged. -/
theorem c4_quality_file_reference (env : Env) (entries : List (Str × PyVal))
    (path content : Str) (v : PyVal)
    (href : entries.lookup refKey = some (PyVal.str path))
    (hv : hasRefKey v = false) :
    (env.fs_read path = none →
      get_quality_ref_file env (PyVal.dict entries) =
        Except.error (.contract (missing_reference_file_exception path))) ∧
    (env.fs_read path = some content →
      get_quality_ref_file env (PyVal.dict entries) = Except.ok (PyVal.str content)) ∧
    get_quality_ref_file env v = Except.ok v := by
  refine ⟨?_, ?_, ?_⟩
  · intro hfs
    exact get_quality_ref_file_missing env entries path href hfs
  · intro hfs
    exact get_quality_ref_file_found env entries path content href hfs
  · exact get_quality_ref_file_no_ref env v hv

/-- C4 witness: in env0 the file q.txt exists with content X, so its
reference payload resolves to X; a plain string payload passes through. -/
theorem c4_witness :
    (([(refKey, PyVal.str ("q.txt".data))].lookup refKey =
        some (PyVal.str ("q.txt".data))) ∧
      hasRefKey (PyVal.str ("inline".data)) = false) ∧
    ((env0.fs_read ("q.txt".data) = none →
        get_quality_ref_file env0 (PyVal.dict [(refKey, PyVal.str ("q.txt".data))]) =
          Except.error
            (.contract (missing_reference_file_exception ("q.txt".data)))) ∧
      (env0.fs_read ("q.txt".data) = some ("X".data) →
        get_quality_ref_file env0 (PyVal.dict [(refKey, PyVal.str ("q.txt".data))]) =
          Except.ok (PyVal.str ("X".data))) ∧
      get_quality_ref_file env0 (PyVal.str ("inline".data)) =
        Except.ok (PyVal.str ("inline".data))) :=
  ⟨⟨by rfl, by rfl⟩,
    c4_quality_file_reference env0 [(refKey, PyVal.str ("q.txt".data))]
      ("q.txt".data) ("X".data) (PyVal.str ("inline".data)) (by rfl) (by rfl)⟩

/-- C5 (amended): a local anchor reference #/definitions/name whose name
does not itself contain the anchor substring resolves to the entry stored
in the definitions mapping, and inlining never mutates the definitions
mapping of the Specification. -/
theorem c5_local_anchor_resolution (env : Env) (defs : List (Str × Definition))
    (name : Str) (d : Definition) (spec s : DataContractSpecification)
    (hname : ¬ anchor <:+: name)
    (hlook : defs.lookup name = some d)
    (hinl : inline_definitions_into_data_contract env spec = Except.ok s) :
    resolve_definition_ref env (some (anchor ++ name)) defs = Except.ok d ∧
    s.definitions = spec.definitions := by
  constructor
  · rw [resolve_definition_ref_anchor env defs name hname, hlook]
  · exact (inline_definitions_preserves_definitions env spec s hinl).1

/-- C5 witness: #/definitions/d5 resolves to the stored entry, and the
successful inlining of spec1 leaves its definitions mapping unchanged. -/
theorem c5_witness :
    (¬ anchor <:+: ("d5".data) ∧
      ([("d5".data, defn0)] : List (Str × Definition)).lookup ("d5".data) =
        some defn0 ∧
      inline_definitions_into_data_contract env0 spec1 = Except.ok spec1out) ∧
    (resolve_definition_ref env0 (some (anchor ++ "d5".data)) [("d5".data, defn0)] =
        Except.ok defn0 ∧
      spec1out.definitions = spec1.definitions) :=
  ⟨⟨by decide, by rfl, by rfl⟩,
    c5_local_anchor_resolution env0 [("d5".data, defn0)] ("d5".data) defn0
      spec1 spec1out (by decide) (by rfl) (by rfl)⟩

/-- C5 counterexample: the reference #/definitions/a#/definitions/b is of
the form #/definitions/name for name a#/definitions/b, which is present
in the mapping; yet resolution returns the entry stored under the
truncated key a, because ref.split takes the piece between the first two
anchor occurrences. -/
theorem c5_counterexample :
    resolve_definition_ref env0
        (some ("#/definitions/a#/definitions/b".data)) defsC5 =
      Except.ok defC5a ∧
    defsC5.lookup ("a#/definitions/b".data) = some defC5b ∧
    defC5a ≠ defC5b := by
  refine ⟨rfl, rfl, ?_⟩
  decide

/-- C6: calling the generic resolver with none of the three inputs fails
with the MissingInput error and returns no Specification. -/
theorem c6_missing_input (env : Env) (schema_location : Option Str)
    (inline_definitions : Bool) :
    resolve_data_contract env none none none schema_location inline_definitions =
      Except.error (.contract missing_input_exception) ∧
    missing_input_exception.reason = "Data contract needs to be provided".data :=
  ⟨rfl, rfl⟩

/-- C7: a pre-built Specification passed to the generic resolver is
returned unchanged, for every environment (hence without validation,
inlining or quality resolution) and for all option values. -/
theorem c7_prebuilt_unchanged (env : Env) (dc : DataContractSpecification)
    (schema_location : Option Str) (inline_definitions : Bool) :
    resolve_data_contract env none none (some dc) schema_location
      inline_definitions = Except.ok dc := rfl

/-- C8: include_quality defaults to true for the location entry point and
to false for the string entry point, so with default options a contract
whose quality payload is a file reference has the reference resolved when
coming from a location but left untouched when coming from a raw
string. -/
theorem c8_include_quality_defaults (env : Env) (loc text : Str) (doc : PyVal)
    (spec0 : DataContractSpecification) (q0 : Quality)
    (entries : List (Str × PyVal)) (p content : Str)
    (hloc1 : strStartsWith httpPre loc = false)
    (hloc2 : strStartsWith httpsPre loc = false)
    (hread : env.read_file loc = text)
    (hyaml : env.yaml_parse text = Except.ok doc)
    (hval : env.js_validate (env.fetch_schema none) doc = none)
    (hbuild : env.build_spec doc = spec0)
    (hq : spec0.quality = some q0)
    (hty : q0.type ≠ geType)
    (hspec : q0.specification = PyVal.dict entries)
    (href : entries.lookup refKey = some (PyVal.str p))
    (hfs : env.fs_read p = some content) :
    resolve_data_contract_from_location_with_defaults env loc =
      Except.ok { spec0 with
        quality := some { q0 with specification := PyVal.str content } } ∧
    resolve_data_contract_from_str_with_defaults env text = Except.ok spec0 ∧
    include_quality_default_from_location = true ∧
    include_quality_default_from_str = false := by
  refine ⟨?_, ?_, rfl, rfl⟩
  · unfold resolve_data_contract_from_location_with_defaults
      resolve_data_contract_from_location
    rw [hloc1, hloc2]
    simp only [Bool.or_self, Bool.false_eq_true, if_false]
    rw [hread,
      resolve_from_str_pipeline env text doc spec0
        include_quality_default_from_location hyaml hval hbuild]
    simp only [hq, Option.isSome_some, include_quality_default_from_location,
      Bool.and_self, if_true]
    exact resolve_quality_on_spec_some env spec0 q0 _ hq
      (resolve_quality_ref_dollar env q0 entries p content hspec hty href hfs)
  · unfold resolve_data_contract_from_str_with_defaults
    rw [resolve_from_str_pipeline env text doc spec0
      include_quality_default_from_str hyaml hval hbuild]
    simp [include_quality_default_from_str]

/-- C8 witness: in env0, resolving the contract from a location with
default options replaces the quality payload by the content X of q.txt,
while resolving the same text from a string with default options leaves
the reference payload in place. -/
theorem c8_witness :
    (strStartsWith httpPre ("file.yaml".data) = false ∧
      strStartsWith httpsPre ("file.yaml".data) = false ∧
      env0.read_file ("file.yaml".data) = "t".data ∧
      env0.yaml_parse ("t".data) = Except.ok (PyVal.dict []) ∧
      env0.js_validate (env0.fetch_schema none) (PyVal.dict []) = none ∧
      env0.build_spec (PyVal.dict []) = spec8 ∧
      spec8.quality = some quality8 ∧
      quality8.type ≠ geType ∧
      quality8.specification = PyVal.dict [(refKey, PyVal.str ("q.txt".data))] ∧
      ([(refKey, PyVal.str ("q.txt".data))].lookup refKey =
        some (PyVal.str ("q.txt".data))) ∧
      env0.fs_read ("q.txt".data) = some ("X".data)) ∧
    (resolve_data_contract_from_location_with_defaults env0 ("file.yaml".data) =
        Except.ok { spec8 with
          quality := some { quality8 with specification := PyVal.str ("X".data) } } ∧
      resolve_data_contract_from_str_with_defaults env0 ("t".data) =
        Except.ok spec8 ∧
      include_quality_default_from_location = true ∧
      include_quality_default_from_str = false) :=
  ⟨⟨by rfl, by rfl, by rfl, by rfl, by rfl, by rfl, by rfl, by decide, by rfl,
      by rfl, by rfl⟩,
    c8_include_quality_defaults env0 ("file.yaml".data) ("t".data) (PyVal.dict [])
      spec8 quality8 [(refKey, PyVal.str ("q.txt".data))] ("q.txt".data) ("X".data)
      (by rfl) (by rfl) (by rfl) (by rfl) (by rfl) (by rfl) (by rfl) (by decide)
      (by rfl) (by rfl) (by rfl)⟩

/-- C9 (amended): a local anchor reference #/definitions/name whose name
does not contain the anchor substring and is absent from the definitions
mapping fails with the untyped KeyError carrying the name, not with the
typed UnresolvableReference error. -/
theorem c9_missing_definition_key_error (env : Env)
    (defs : List (Str × Definition)) (name : Str)
    (hname : ¬ anchor <:+: name) (hlook : defs.lookup name = none) :
    resolve_definition_ref env (some (anchor ++ name)) defs =
      Except.error (PyError.keyError name) := by
  rw [resolve_definition_ref_anchor env defs name hname, hlook]

/-- C9 witness: #/definitions/d9 with d9 absent raises KeyError d9. -/
theorem c9_witness :
    (¬ anchor <:+: ("d9".data) ∧
      ([("x".data, defn0)] : List (Str × Definition)).lookup ("d9".data) = none) ∧
    resolve_definition_ref env0 (some (anchor ++ "d9".data)) [("x".data, defn0)] =
      Except.error (PyError.keyError ("d9".data)) :=
  ⟨⟨by decide, by rfl⟩,
    c9_missing_definition_key_error env0 [("x".data, defn0)] ("d9".data)
      (by decide) (by rfl)⟩

/-- C9 counterexample: for the reference #/definitions/a#/definitions/b
the name a#/definitions/b is absent from the mapping, yet resolution does
not raise at all: the split truncates the looked-up key to a, which is
present, so a definition is returned. -/
theorem c9_counterexample :
    (([("a".data, defn0)] : List (Str × Definition)).lookup
        ("a#/definitions/b".data) = none) ∧
    resolve_definition_ref env0 (some ("#/definitions/a#/definitions/b".data))
      [("a".data, defn0)] = Except.ok defn0 :=
  ⟨by rfl, by rfl⟩

/-- C10: when several inputs are supplied to the generic resolver no error
is raised; the location is tried first (delegating with the location
entry point's default include_quality of true), and with no location the
raw string is tried next (delegating with the string entry point's
default of false), ignoring the remaining inputs. -/
theorem c10_input_precedence (env : Env) (loc strv : Str) (ostr : Option Str)
    (odc odc2 : Option DataContractSpecification) (schema_location : Option Str)
    (inline_definitions : Bool) :
    resolve_data_contract env (some loc) ostr odc schema_location
        inline_definitions =
      resolve_data_contract_from_location env loc schema_location
        inline_definitions true ∧
    resolve_data_contract env none (some strv) odc2 schema_location
        inline_definitions =
      resolve_data_contract_from_str env strv schema_location
        inline_definitions false :=
  ⟨rfl, rfl⟩

end DataContract
